import Mathlib

/-!
Verification development for the `geometric_shapes` shape-operations module
(`src/shape_operations.cpp` together with its header).

Modelling conventions:
* Machine `double` coordinates are embedded as exact rationals `ℚ`.  The vertex
  deduplication of `createMeshFromVertices` compares coordinates with the exact
  lexicographic order `ltLocalVertexValue`; on parsed finite numeric data this
  comparator is a strict total order, which `ℚ`'s order models faithfully.
* Per-triangle normals are derived data: every construction path ends by calling
  `computeNormals()`, which recomputes the whole normal array from the vertex and
  triangle arrays (normalization divides by a Euclidean norm, an irrational
  quantity, so the stored normal values live outside the exact-rational
  embedding).  The `Mesh` model therefore carries only the primary geometry
  (counts, vertex array, triangle array); normals are always the fixed function
  of those fields and are never independently supplied or serialized.
* Fallible C++ functions returning `NULL` / `false` are embedded with `Option`.
-/

/-- A 3-d point: the coordinates of one vertex, `(x, y, z)`. -/
abbrev Point : Type := ℚ × ℚ × ℚ

namespace shapes

/-- Local representation of a vertex that knows its position in an array
(embeds `detail::LocalVertexType`). -/
structure LocalVertexType where
  x : ℚ
  y : ℚ
  z : ℚ
  index : ℕ
deriving DecidableEq

/-- The coordinate triple of a local vertex. -/
def LocalVertexType.point (v : LocalVertexType) : Point := (v.x, v.y, v.z)

/-- Sorting operator by point value (embeds `detail::ltLocalVertexValue`):
lexicographic strict comparison of `(x, y, z)`. -/
def ltLocalVertexValue (p1 p2 : LocalVertexType) : Bool :=
  if p1.x < p2.x then true
  else if p1.x > p2.x then false
  else if p1.y < p2.y then true
  else if p1.y > p2.y then false
  else if p1.z < p2.z then true
  else false

/-- The equivalence induced by the comparator, which is what `std::set::find`
uses to locate an element: neither argument is strictly below the other. -/
def sameVertexValue (p1 p2 : LocalVertexType) : Bool :=
  !ltLocalVertexValue p1 p2 && !ltLocalVertexValue p2 p1

/-- The mesh entity (the primary-geometry fields of `shapes::Mesh`).
Modelled from the spec: the class itself lives in `shapes.h`/`shapes.cpp`
(not under `src/`); per the spec the vertex array holds `3 * vertex_count`
interleaved coordinates and the triangle array `3 * triangle_count` vertex
indices, and the derived normal array is always recomputed from these fields. -/
structure Mesh where
  vertex_count : ℕ
  triangle_count : ℕ
  vertices : List ℚ
  triangles : List ℕ
deriving DecidableEq

/-- Well-formedness invariant of a mesh: the flat arrays have exactly the
lengths announced by the counts (the C++ constructor allocates them so). -/
def Mesh.wf (m : Mesh) : Prop :=
  m.vertices.length = 3 * m.vertex_count ∧ m.triangles.length = 3 * m.triangle_count

instance (m : Mesh) : Decidable m.wf := by unfold Mesh.wf; infer_instance

/-- Flatten a list of triples into the interleaved flat array. -/
def flatten3 {α : Type} : List (α × α × α) → List α
  | [] => []
  | t :: l => t.1 :: t.2.1 :: t.2.2 :: flatten3 l

/-- Group a flat interleaved array into consecutive triples (a trailing
remainder of one or two elements is dropped). -/
def group3 {α : Type} (xs : List α) : List (α × α × α) :=
  match xs with
  | x :: y :: z :: l => (x, y, z) :: group3 l
  | _ => []
termination_by structural xs

/-- Embeds `createMeshFromVertices(vertices, triangles)`: the indexed builder.
Copies both arrays verbatim, sets `triangle_count = len(triangles) / 3`
(integer division) and `vertex_count = len(vertices)`; it validates nothing
and has no failure path.  (The C++ then calls `computeNormals()`, which fills
the derived normal array from exactly these fields.) -/
def createMeshFromVertices (vertices : List Point) (triangles : List ℕ) : Mesh :=
  { vertex_count := vertices.length
    triangle_count := triangles.length / 3
    vertices := flatten3 vertices
    triangles := triangles }

/-- State of the deduplication loop of the soup-based
`createMeshFromVertices(source)`: the set of unique vertices (kept here in
insertion order, which is the order the final sort by `index` produces, since
indices are assigned increasingly) and the accumulated triangle-index list. -/
structure SoupState where
  verts : List LocalVertexType
  tris : List ℕ

/-- One iteration of the loop body of the soup builder, for a single source
point: look the point up by exact value; if absent insert it with
`index = vertices.size()`; append the found or assigned index. -/
def addSoupPoint (s : SoupState) (p : Point) : SoupState :=
  let vt : LocalVertexType := ⟨p.1, p.2.1, p.2.2, s.verts.length⟩
  match s.verts.find? (fun w => sameVertexValue w vt) with
  | some w => ⟨s.verts, s.tris ++ [w.index]⟩
  | none => ⟨s.verts ++ [vt], s.tris ++ [vt.index]⟩

/-- Embeds `createMeshFromVertices(source)`: the soup-based builder.  Returns `NULL`
on fewer than 3 points; otherwise processes `n = len / 3` triangles (3 points
each), deduplicating vertices by exact value, then assembles the mesh from the
unique vertices sorted by assigned index and the accumulated index list. -/
def createMeshFromVerticesSoup (source : List Point) : Option Mesh :=
  if source.length < 3 then none
  else
    let n := source.length / 3
    let s := (source.take (3 * n)).foldl addSoupPoint ⟨[], []⟩
    some { vertex_count := s.verts.length
           triangle_count := s.tris.length / 3
           vertices := flatten3 (s.verts.map LocalVertexType.point)
           triangles := s.tris }

/-- Whether the soup builder emits its non-fatal `logError` warning: reached
only past the `< 3` early return, when the point count is not divisible by 3. -/
def soupWarns (source : List Point) : Bool :=
  !(source.length < 3) && (source.length % 3 != 0)

/-- The closed set of shape variants (`shapes::Shape` and its subclasses).
Modelled from the spec: the class hierarchy lives in `shapes.h` (not under
`src/`); per the spec each variant owns its numeric fields by value, and the
opaque volumetric `OcTree` variant carries no data this module ever inspects. -/
inductive Shape where
  | sphere (radius : ℚ)
  | box (x y z : ℚ)
  | cylinder (radius length : ℚ)
  | cone (radius length : ℚ)
  | plane (a b c d : ℚ)
  | mesh (m : Mesh)
  | octree
deriving DecidableEq

/-- Well-formedness of a shape: only the mesh variant carries an array-length
invariant. -/
def Shape.wf : Shape → Prop
  | .mesh m => m.wf
  | _ => True

instance (s : Shape) : Decidable s.wf := by cases s <;> unfold Shape.wf <;> infer_instance

/-- A mesh "has geometry" when both counts are positive (the spec's "a mesh
must have geometry"); trivially true for the other variants. -/
def Shape.hasGeometry : Shape → Prop
  | .mesh m => 0 < m.vertex_count ∧ 0 < m.triangle_count
  | _ => True

instance (s : Shape) : Decidable s.hasGeometry := by
  cases s <;> unfold Shape.hasGeometry <;> infer_instance

/-- The primitive kinds of the external `shape_msgs::SolidPrimitive` schema.
Modelled from the spec: the kind is an enum over SPHERE, BOX, CYLINDER, CONE. -/
inductive PrimitiveType where
  | sphere
  | box
  | cylinder
  | cone
deriving DecidableEq

/-- Embeds `shape_msgs::SolidPrimitive`: a primitive kind plus an ordered dimension
list.  Modelled from the spec's wire schema; the fixed dimension offsets are
`SPHERE_RADIUS = 0`, `BOX_X, BOX_Y, BOX_Z = 0, 1, 2`,
`CYLINDER_RADIUS, CYLINDER_HEIGHT = 0, 1`, `CONE_RADIUS, CONE_HEIGHT = 0, 1`. -/
structure SolidPrimitiveMsg where
  type : PrimitiveType
  dimensions : List ℚ
deriving DecidableEq

/-- Embeds `shape_msgs::Plane`: four positional coefficients. -/
structure PlaneMsg where
  c0 : ℚ
  c1 : ℚ
  c2 : ℚ
  c3 : ℚ
deriving DecidableEq

/-- Embeds `shape_msgs::Mesh`: a list of 3-coordinate points and a list of
3-index triangles. -/
structure MeshMsg where
  vertices : List Point
  triangles : List (ℕ × ℕ × ℕ)
deriving DecidableEq

/-- Embeds `shapes::ShapeMsg`: the tagged union (`boost::variant`) over the three
message forms. -/
inductive ShapeMsg where
  | prim (p : SolidPrimitiveMsg)
  | plane (p : PlaneMsg)
  | mesh (m : MeshMsg)
deriving DecidableEq

/-- Embeds `constructShapeFromMsg(const shape_msgs::Plane&)`: always succeeds,
copying the four coefficients positionally. -/
def constructShapeFromPlaneMsg (p : PlaneMsg) : Shape :=
  .plane p.c0 p.c1 p.c2 p.c3

/-- Embeds `constructShapeFromMsg(const shape_msgs::Mesh&)`: fails when either list
is empty; otherwise flattens the index triples and delegates to the indexed
builder `createMeshFromVertices(vertices, triangles)`. -/
def constructShapeFromMeshMsg (m : MeshMsg) : Option Shape :=
  if m.triangles.isEmpty || m.vertices.isEmpty then none
  else some (.mesh (createMeshFromVertices m.vertices (flatten3 m.triangles)))

/-- Embeds `constructShapeFromMsg(const shape_msgs::SolidPrimitive&)`: per kind,
requires `dimensions` to reach past the fixed offsets that kind reads
(sphere: offset 0; box: offsets 0,1,2; cylinder/cone: offsets 0,1) and builds
the shape from exactly those entries; otherwise the result stays `NULL`. -/
def constructShapeFromPrimitiveMsg (p : SolidPrimitiveMsg) : Option Shape :=
  match p.type, p.dimensions with
  | .sphere, r :: _ => some (.sphere r)
  | .box, x :: y :: z :: _ => some (.box x y z)
  | .cylinder, r :: l :: _ => some (.cylinder r l)
  | .cone, r :: l :: _ => some (.cone r l)
  | _, _ => none

/-- Embeds `constructShapeFromMsg(const ShapeMsg&)`: dispatch on the variant tag
(`ShapeVisitorAlloc`). -/
def constructShapeFromMsg : ShapeMsg → Option Shape
  | .prim p => constructShapeFromPrimitiveMsg p
  | .plane p => some (constructShapeFromPlaneMsg p)
  | .mesh m => constructShapeFromMeshMsg m

/-- Embeds `constructMsgFromShape`: one case per discriminant, populating the message
fields straight from the shape's fields; fails (returns `false`, message left
unset) for `OCTREE` — the only discriminant of the closed variant set without
a case. -/
def constructMsgFromShape : Shape → Option ShapeMsg
  | .sphere r => some (.prim ⟨.sphere, [r]⟩)
  | .box x y z => some (.prim ⟨.box, [x, y, z]⟩)
  | .cylinder r l => some (.prim ⟨.cylinder, [r, l]⟩)
  | .cone r l => some (.prim ⟨.cone, [r, l]⟩)
  | .plane a b c d => some (.plane ⟨a, b, c, d⟩)
  | .mesh m =>
      some (.mesh ⟨group3 (m.vertices.take (3 * m.vertex_count)),
                   group3 (m.triangles.take (3 * m.triangle_count))⟩)
  | .octree => none

/-- Extent of a solid-primitive message.  Modelled from the spec:
`shape_tools::getShapeExtents` is an external collaborator; the spec describes
it as the axis-aligned bounding-box size computed from the primitive's own
dimensions. -/
def primitiveMsgExtents (p : SolidPrimitiveMsg) : Point :=
  match p.type with
  | .sphere =>
      let r := p.dimensions.getD 0 0
      (2 * r, 2 * r, 2 * r)
  | .box => (p.dimensions.getD 0 0, p.dimensions.getD 1 0, p.dimensions.getD 2 0)
  | .cylinder =>
      let r := p.dimensions.getD 0 0
      (2 * r, 2 * r, p.dimensions.getD 1 0)
  | .cone =>
      let r := p.dimensions.getD 0 0
      (2 * r, 2 * r, p.dimensions.getD 1 0)

/-- Extent of a mesh message.  Modelled from the spec:
`shape_tools::getShapeExtents` is an external collaborator; the spec describes
the result as the bounding-box size from the vertex extrema. -/
def meshMsgExtents (m : MeshMsg) : Point :=
  match m.vertices with
  | [] => (0, 0, 0)
  | v :: rest =>
      let mm := rest.foldl
        (fun (a : Point × Point) p =>
          ((min a.1.1 p.1, min a.1.2.1 p.2.1, min a.1.2.2 p.2.2),
           (max a.2.1 p.1, max a.2.2.1 p.2.1, max a.2.2.2 p.2.2))) (v, v)
      (mm.2.1 - mm.1.1, mm.2.2.1 - mm.1.2.1, mm.2.2.2 - mm.1.2.2)

/-- Embeds `computeShapeExtents(const ShapeMsg&)` (`ShapeVisitorComputeExtents`):
a plane message yields the zero vector outright; the other two tags delegate
to the external extent computation. -/
def computeShapeExtentsMsg : ShapeMsg → Point
  | .plane _ => (0, 0, 0)
  | .mesh m => meshMsgExtents m
  | .prim p => primitiveMsgExtents p

/-- Embeds `computeShapeExtents(const Shape*)`: convert to a message and measure it;
when the conversion fails, return the zero vector. -/
def computeShapeExtentsShape (s : Shape) : Point :=
  match constructMsgFromShape s with
  | some msg => computeShapeExtentsMsg msg
  | none => (0, 0, 0)

/-- One whitespace-separated token of the plain-text format: either a word or
a numeric literal carrying its exact value. -/
inductive Token where
  | tstr (s : String)
  | tnum (q : ℚ)
deriving DecidableEq

/-- The text a numeric literal presents when extracted as a `std::string`: it
begins with a digit, sign or dot, so it never equals any of the alphabetic
type-name tokens — which is all the parser compares it against. -/
def numTokenText : String := "0"

/-- Input-stream state at token granularity, with the `std::istream` flag
discipline: `toks` are the unread tokens, `trailing` records whether the raw
text ends in whitespace after its last token (an `std::endl`-terminated save
always does), and `eofbit` / `failbit` follow the C++ stream rules — a
formatted extraction sets `eofbit` exactly when it stops at end of input, and
`failbit` when it cannot produce a value. -/
structure IStream where
  toks : List Token
  trailing : Bool
  eofbit : Bool
  failbit : Bool
deriving DecidableEq

/-- A fresh stream over the given tokens, as handed to `constructShapeFromText`;
`trailing` says whether the raw text ends in trailing whitespace. -/
def IStream.fresh (toks : List Token) (trailing : Bool) : IStream :=
  ⟨toks, trailing, false, false⟩

/-- Embeds `istream::good()`: no error flag and not at end of file. -/
def IStream.good (s : IStream) : Bool := !s.failbit && !s.eofbit

/-- Extract one token.  On a stream already at eof or in a failed state the
sentry fails and sets `failbit`; when whitespace skipping hits end of input,
`eofbit` and `failbit` are set; otherwise the head token is consumed and
`eofbit` is set exactly when extraction stopped because the input ended (last
token, no trailing whitespace). -/
def IStream.readToken (s : IStream) : Option Token × IStream :=
  if s.failbit || s.eofbit then (none, { s with failbit := true })
  else
    match s.toks with
    | [] => (none, { s with eofbit := true, failbit := true })
    | t :: rest => (some t, { s with toks := rest, eofbit := rest.isEmpty && !s.trailing })

/-- Embeds `in >> (std::string&)`: any token reads as its text; on failure the string
is left empty (it was default-constructed empty at the call sites). -/
def IStream.readStr (s : IStream) : String × IStream :=
  match s.readToken with
  | (some (.tstr w), s1) => (w, s1)
  | (some (.tnum _), s1) => (numTokenText, s1)
  | (none, s1) => ("", s1)

/-- Embeds `in >> (double&)`: succeeds exactly on a numeric token; on failure
`failbit` is set and no value is produced (the C++ variable then keeps its
prior — here indeterminate — contents, which callers model with a junk
default). -/
def IStream.readNum (s : IStream) : Option ℚ × IStream :=
  match s.readToken with
  | (some (.tnum q), s1) => (some q, s1)
  | (some (.tstr _), s1) => (none, { s1 with failbit := true })
  | (none, s1) => (none, s1)

/-- Embeds `in >> (unsigned int&)`: a numeric token holding a nonnegative integer
value yields that value; anything else fails.  (Character-level truncation of
a fractional literal is below the token granularity of this model and is never
exercised by the saved format, which writes counts and indices as integers.) -/
def IStream.readUInt (s : IStream) : Option ℕ × IStream :=
  match s.readToken with
  | (some (.tnum q), s1) =>
      if q.den = 1 ∧ 0 ≤ q.num then (some q.num.toNat, s1)
      else (none, { s1 with failbit := true })
  | (some (.tstr _), s1) => (none, { s1 with failbit := true })
  | (none, s1) => (none, s1)

/-- Chained extraction of `n` doubles into a preallocated array; each failed
extraction leaves the corresponding slot at its indeterminate value `junk`. -/
def IStream.readNums (junk : ℚ) : ℕ → IStream → List ℚ × IStream
  | 0, s => ([], s)
  | n + 1, s =>
      let (q, s1) := s.readNum
      let (qs, s2) := IStream.readNums junk n s1
      ((q.getD junk) :: qs, s2)

/-- Chained extraction of `n` unsigned ints, with indeterminate slots `junk`. -/
def IStream.readUInts (junk : ℕ) : ℕ → IStream → List ℕ × IStream
  | 0, s => ([], s)
  | n + 1, s =>
      let (q, s1) := s.readUInt
      let (qs, s2) := IStream.readUInts junk n s1
      ((q.getD junk) :: qs, s2)

/-- The `STRING_NAME` constant of each shape class.  Modelled from the spec:
the constants live in `shapes.h`/`shapes.cpp` (not under `src/`); the spec
fixes the literal type names `sphere|box|cylinder|cone|plane|mesh`. -/
def sphereName : String := "sphere"

/-- Embeds `Box::STRING_NAME` (see `sphereName`). -/
def boxName : String := "box"

/-- Embeds `Cylinder::STRING_NAME` (see `sphereName`). -/
def cylinderName : String := "cylinder"

/-- Embeds `Cone::STRING_NAME` (see `sphereName`). -/
def coneName : String := "cone"

/-- Embeds `Plane::STRING_NAME` (see `sphereName`). -/
def planeName : String := "plane"

/-- Embeds `Mesh::STRING_NAME` (see `sphereName`). -/
def meshName : String := "mesh"

/-- Number of decimal digits of a natural number (0 for 0), written with a
structural fuel argument so that closed terms reduce inside the kernel. -/
def numDigitsAux : ℕ → ℕ → ℕ
  | 0, _ => 0
  | fuel + 1, n => if n = 0 then 0 else numDigitsAux fuel (n / 10) + 1

/-- Number of decimal digits of a natural number; for `n ≥ 1` it is the `d`
with `10 ^ (d - 1) ≤ n < 10 ^ d`.  A fuel of `n + 1` always suffices. -/
def numDigits (n : ℕ) : ℕ := numDigitsAux (n + 1) n

/-- Decimal exponent of the leading significant digit of the positive
fraction `a / b`: the greatest `e : ℤ` with `10 ^ e ≤ a / b`.  Since
`10 ^ (d₁ - d₂ - 1) < a / b < 10 ^ (d₁ - d₂ + 1)` for the digit counts
`d₁, d₂`, the exponent is `d₁ - d₂` or `d₁ - d₂ - 1`, decided by one
cross-multiplied comparison. -/
def decExpNat (a b : ℕ) : ℤ :=
  let e0 : ℤ := (numDigits a : ℤ) - (numDigits b : ℤ)
  if 0 ≤ e0 then
    (if b * 10 ^ e0.toNat ≤ a then e0 else e0 - 1)
  else
    (if b ≤ a * 10 ^ (-e0).toNat then e0 else e0 - 1)

/-- Value denoted by the decimal text that `operator<<(std::ostream&, double)`
prints at the stream's default precision of 6 (no `precision` call appears
anywhere in `saveAsText`): the magnitude is rounded to 6 significant decimal
digits — round to nearest, ties to even, the correctly-rounded conversion of
the C library — and the sign is kept.  Presentation details (fixed versus
scientific form, stripped trailing zeros) do not change the denoted value.
The upstream quantization of the ideal value to binary floating point is
outside the exact-rational embedding.  The computation stays in `ℕ`/`ℤ`:
with `e` the decimal exponent of `|q| = a / b`, the scaled magnitude
`|q| * 10 ^ (5 - e)` lies in `[10^5, 10^6]` and equals `a2 / b2` below, whose
nearest integer (ties to even) is the 6-digit mantissa. -/
def sigRound6 (q : ℚ) : ℚ :=
  if q = 0 then 0
  else
    let a : ℕ := q.num.natAbs
    let b : ℕ := q.den
    let e : ℤ := decExpNat a b
    let k : ℤ := 5 - e
    let a2 : ℕ := a * 10 ^ k.toNat
    let b2 : ℕ := b * 10 ^ (-k).toNat
    let f : ℕ := a2 / b2
    let r2 : ℕ := 2 * (a2 % b2)
    let N : ℕ :=
      if r2 < b2 then f
      else if b2 < r2 then f + 1
      else if f % 2 = 0 then f else f + 1
    let sgn : ℤ := if q < 0 then -1 else 1
    if 0 ≤ k then mkRat (sgn * N) (10 ^ k.toNat)
    else ((sgn * ((N * 10 ^ (-k).toNat : ℕ) : ℤ) : ℤ) : ℚ)

/-- Embeds `saveAsText`: the token stream written for a shape — the type-name token
followed by the type's numeric fields; a mesh writes its two counts, then
`vertex_count` coordinate triples, then `triangle_count` index triples (face
normals are never written); an `OCTREE` writes nothing (failure logged).
Every `double` field is printed at the stream's default precision of 6
significant digits, so its token carries the rounded value `sigRound6`;
the counts and triangle indices are unsigned integers, which `operator<<`
prints in full regardless of the floating-point precision. -/
def saveAsText : Shape → List Token
  | .sphere r => [.tstr sphereName, .tnum (sigRound6 r)]
  | .box x y z => [.tstr boxName, .tnum (sigRound6 x), .tnum (sigRound6 y), .tnum (sigRound6 z)]
  | .cylinder r l => [.tstr cylinderName, .tnum (sigRound6 r), .tnum (sigRound6 l)]
  | .cone r l => [.tstr coneName, .tnum (sigRound6 r), .tnum (sigRound6 l)]
  | .plane a b c d =>
      [.tstr planeName, .tnum (sigRound6 a), .tnum (sigRound6 b), .tnum (sigRound6 c),
        .tnum (sigRound6 d)]
  | .mesh m =>
      [.tstr meshName, .tnum m.vertex_count, .tnum m.triangle_count]
        ++ (m.vertices.take (3 * m.vertex_count)).map (fun q => Token.tnum (sigRound6 q))
        ++ (m.triangles.take (3 * m.triangle_count)).map (fun (i : ℕ) => Token.tnum (i : ℚ))
  | .octree => []

/-- The shape with every floating-point field replaced by its default-precision
rendering `sigRound6` (counts and triangle indices untouched): what the text
round trip can reproduce at best. -/
def roundShape6 : Shape → Shape
  | .sphere r => .sphere (sigRound6 r)
  | .box x y z => .box (sigRound6 x) (sigRound6 y) (sigRound6 z)
  | .cylinder r l => .cylinder (sigRound6 r) (sigRound6 l)
  | .cone r l => .cone (sigRound6 r) (sigRound6 l)
  | .plane a b c d => .plane (sigRound6 a) (sigRound6 b) (sigRound6 c) (sigRound6 d)
  | .mesh m => .mesh ⟨m.vertex_count, m.triangle_count, m.vertices.map sigRound6, m.triangles⟩
  | .octree => .octree

/-- Embeds `constructShapeFromText`: read the type-name token behind two
`good() && !eof()` guards, then read that type's numeric fields with *no*
stream-state check — a failed numeric extraction leaves the corresponding C++
variable indeterminate (parameters `junkNum` / `junkUInt` here) and the shape
is still constructed and returned.  Only an initially bad/ended stream, end of
input immediately after the type token, or an unknown type token yield `NULL`. -/
def constructShapeFromText (junkNum : ℚ) (junkUInt : ℕ) (s : IStream) : Option Shape :=
  if s.good && !s.eofbit then
    let (ty, s1) := s.readStr
    if s1.good && !s1.eofbit then
      if ty = sphereName then
        let (r, _) := s1.readNum
        some (.sphere (r.getD junkNum))
      else if ty = boxName then
        let (x, s2) := s1.readNum
        let (y, s3) := s2.readNum
        let (z, _) := s3.readNum
        some (.box (x.getD junkNum) (y.getD junkNum) (z.getD junkNum))
      else if ty = cylinderName then
        let (r, s2) := s1.readNum
        let (l, _) := s2.readNum
        some (.cylinder (r.getD junkNum) (l.getD junkNum))
      else if ty = coneName then
        let (r, s2) := s1.readNum
        let (l, _) := s2.readNum
        some (.cone (r.getD junkNum) (l.getD junkNum))
      else if ty = planeName then
        let (a, s2) := s1.readNum
        let (b, s3) := s2.readNum
        let (c, s4) := s3.readNum
        let (d, _) := s4.readNum
        some (.plane (a.getD junkNum) (b.getD junkNum) (c.getD junkNum) (d.getD junkNum))
      else if ty = meshName then
        let (v, s2) := s1.readUInt
        let (t, s3) := s2.readUInt
        let vc := v.getD junkUInt
        let tc := t.getD junkUInt
        let (vs, s4) := IStream.readNums junkNum (3 * vc) s3
        let (ts, _) := IStream.readUInts junkUInt (3 * tc) s4
        some (.mesh ⟨vc, tc, vs, ts⟩)
      else none
    else none
  else none

/-- Spec-side description of the deduplication output (one step): keep a
point only on its first appearance, preserving input order.  Stated from the
spec's words ("emit the deduplicated vertex array ... in order of first
appearance across the input stream"), to be compared with the builder. -/
def dedupFOAux {α : Type} [DecidableEq α] (acc : List α) : List α → List α
  | [] => acc
  | p :: l => dedupFOAux (if p ∈ acc then acc else acc ++ [p]) l

/-- Spec-side first-occurrence deduplication of a whole stream. -/
def dedupFO {α : Type} [DecidableEq α] (l : List α) : List α := dedupFOAux [] l

/-- Position of the first occurrence of `a` in a list (the sequential id the
spec assigns to a vertex). -/
def firstIndexOf {α : Type} [DecidableEq α] (a : α) : List α → ℕ
  | [] => 0
  | b :: l => if b = a then 0 else firstIndexOf a l + 1

/-- The local-vertex list corresponding to a point list with indices assigned
sequentially from `off` (the shape of the builder's unique-vertex collection
once sorted by index). -/
def mkLocalVertices (off : ℕ) : List Point → List LocalVertexType
  | [] => []
  | p :: l => ⟨p.1, p.2.1, p.2.2, off⟩ :: mkLocalVertices (off + 1) l

/-- Loop invariant of the soup builder relating the processed prefix of the
source stream to the dedup-loop state. -/
def SoupInv (proc : List Point) (s : SoupState) : Prop :=
  s.verts = mkLocalVertices 0 (dedupFO proc)
  ∧ s.tris.length = proc.length
  ∧ ∀ j, j < proc.length →
      s.tris.getD j 0 = firstIndexOf (proc.getD j (0, 0, 0)) (dedupFO proc)

/-- The dimension count each primitive kind requires of a message (the claim's
"sphere needs 1 value; box needs 3; cylinder and cone need 2"). -/
def dimsRequired : PrimitiveType → ℕ
  | .sphere => 1
  | .box => 3
  | .cylinder => 2
  | .cone => 2

/-- A concrete six-point soup: two triangles sharing two vertices (four
distinct coordinate triples). -/
def sampleSoup : List Point :=
  [(0, 0, 0), (1, 0, 0), (0, 1, 0), (0, 0, 0), (0, 1, 0), (1, 1, 0)]

/-- A concrete four-point soup: count not divisible by 3, one point dropped. -/
def sampleSoupFour : List Point :=
  [(0, 0, 0), (1, 0, 0), (0, 1, 0), (1, 1, 0)]

/-- A concrete two-point soup: below the three-point minimum. -/
def sampleSoupTwo : List Point := [(0, 0, 0), (1, 0, 0)]

/-- A concrete well-formed mesh: two vertices announced, one triangle. -/
def sampleMesh : Mesh := ⟨2, 1, [0, 0, 0, 1, 0, 0], [0, 1, 0]⟩

lemma sameVertexValue_iff (p q : LocalVertexType) :
    sameVertexValue p q = true ↔ p.point = q.point := by
  unfold sameVertexValue ltLocalVertexValue LocalVertexType.point
  rcases lt_trichotomy p.x q.x with hx | hx | hx
  · simp [hx, asymm hx, ne_of_lt hx]
  · rcases lt_trichotomy p.y q.y with hy | hy | hy
    · simp [hx, lt_irrefl, hy, asymm hy, ne_of_lt hy]
    · rcases lt_trichotomy p.z q.z with hz | hz | hz
      · simp [hx, hy, lt_irrefl, hz, asymm hz, ne_of_lt hz]
      · simp [hx, hy, hz, lt_irrefl]
      · simp [hx, hy, lt_irrefl, asymm hz, hz, ne_of_gt hz]
    · simp [hx, lt_irrefl, asymm hy, hy, ne_of_gt hy]
  · simp [asymm hx, hx, ne_of_gt hx]

lemma length_mkLocalVertices (off : ℕ) (l : List Point) :
    (mkLocalVertices off l).length = l.length := by
  induction l generalizing off with
  | nil => rfl
  | cons p l ih => simp [mkLocalVertices, ih]

lemma map_point_mkLocalVertices (off : ℕ) (l : List Point) :
    (mkLocalVertices off l).map LocalVertexType.point = l := by
  induction l generalizing off with
  | nil => rfl
  | cons p l ih => simp [mkLocalVertices, ih, LocalVertexType.point]

lemma mkLocalVertices_append (off : ℕ) (l : List Point) (p : Point) :
    mkLocalVertices off (l ++ [p])
      = mkLocalVertices off l ++ [⟨p.1, p.2.1, p.2.2, off + l.length⟩] := by
  induction l generalizing off with
  | nil => simp [mkLocalVertices]
  | cons q l ih =>
      have step : mkLocalVertices off ((q :: l) ++ [p])
          = ⟨q.1, q.2.1, q.2.2, off⟩ :: mkLocalVertices (off + 1) (l ++ [p]) := rfl
      rw [step, ih]
      have harith : off + 1 + l.length = off + (l.length + 1) := by omega
      simp [mkLocalVertices, harith]

lemma find?_mkLocalVertices_of_not_mem (off : ℕ) (l : List Point)
    (v : LocalVertexType) (h : v.point ∉ l) :
    (mkLocalVertices off l).find? (fun w => sameVertexValue w v) = none := by
  induction l generalizing off with
  | nil => rfl
  | cons p l ih =>
      have hne : sameVertexValue ⟨p.1, p.2.1, p.2.2, off⟩ v = false := by
        apply Bool.eq_false_iff.2
        intro hw
        have e : p = v.point := (sameVertexValue_iff _ _).1 hw
        exact h (by rw [← e]; exact List.mem_cons_self p l)
      rw [mkLocalVertices]
      rw [show (⟨p.1, p.2.1, p.2.2, off⟩ :: mkLocalVertices (off + 1) l).find?
            (fun w => sameVertexValue w v)
          = (mkLocalVertices (off + 1) l).find? (fun w => sameVertexValue w v) from by
        simp [List.find?_cons, hne]]
      exact ih _ (fun hm => h (List.mem_cons_of_mem _ hm))

lemma find?_mkLocalVertices_of_mem (off : ℕ) (l : List Point)
    (v : LocalVertexType) (h : v.point ∈ l) :
    (mkLocalVertices off l).find? (fun w => sameVertexValue w v)
      = some ⟨v.x, v.y, v.z, off + firstIndexOf v.point l⟩ := by
  induction l generalizing off with
  | nil => exact absurd h (List.not_mem_nil _)
  | cons p l ih =>
      by_cases hp : p = v.point
      · have hpos : sameVertexValue ⟨p.1, p.2.1, p.2.2, off⟩ v = true := by
          apply (sameVertexValue_iff _ _).2
          show p = v.point
          exact hp
        have hfind : (mkLocalVertices off (p :: l)).find? (fun w => sameVertexValue w v)
            = some ⟨p.1, p.2.1, p.2.2, off⟩ := by
          rw [mkLocalVertices]
          simp [List.find?_cons, hpos]
        rw [hfind]
        have hidx : firstIndexOf v.point (p :: l) = 0 := by simp [firstIndexOf, hp]
        have e1 : p.1 = v.x := by rw [hp]; rfl
        have e2 : p.2.1 = v.y := by rw [hp]; rfl
        have e3 : p.2.2 = v.z := by rw [hp]; rfl
        rw [hidx, e1, e2, e3]
        simp
      · have hm : v.point ∈ l := by
          rcases List.mem_cons.1 h with h1 | h1
          · exact absurd h1.symm hp
          · exact h1
        have hne : sameVertexValue ⟨p.1, p.2.1, p.2.2, off⟩ v = false :=
          Bool.eq_false_iff.2 (fun hw => hp ((sameVertexValue_iff _ _).1 hw))
        rw [mkLocalVertices]
        rw [show (⟨p.1, p.2.1, p.2.2, off⟩ :: mkLocalVertices (off + 1) l).find?
              (fun w => sameVertexValue w v)
            = (mkLocalVertices (off + 1) l).find? (fun w => sameVertexValue w v) from by
          simp [List.find?_cons, hne]]
        rw [ih _ hm]
        have hidx : firstIndexOf v.point (p :: l) = firstIndexOf v.point l + 1 := by
          simp [firstIndexOf, hp]
        rw [hidx]
        simp only [Option.some.injEq, LocalVertexType.mk.injEq, true_and]
        omega

section DedupLemmas

variable {α : Type} [DecidableEq α]

lemma dedupFOAux_append_singleton (acc l : List α) (p : α) :
    dedupFOAux acc (l ++ [p])
      = (if p ∈ dedupFOAux acc l then dedupFOAux acc l else dedupFOAux acc l ++ [p]) := by
  induction l generalizing acc with
  | nil => rfl
  | cons q l ih => simpa [dedupFOAux] using ih (if q ∈ acc then acc else acc ++ [q])

lemma mem_dedupFOAux (a : α) (acc l : List α) :
    a ∈ dedupFOAux acc l ↔ a ∈ acc ∨ a ∈ l := by
  induction l generalizing acc with
  | nil => simp [dedupFOAux]
  | cons q l ih =>
      rw [dedupFOAux, ih]
      by_cases hq : q ∈ acc
      · simp only [if_pos hq, List.mem_cons]
        constructor
        · rintro (h1 | h1)
          · exact Or.inl h1
          · exact Or.inr (Or.inr h1)
        · rintro (h1 | h1 | h1)
          · exact Or.inl h1
          · exact Or.inl (h1 ▸ hq)
          · exact Or.inr h1
      · simp only [if_neg hq, List.mem_append, List.mem_singleton, List.mem_cons]
        tauto

lemma nodup_dedupFOAux (acc l : List α) (h : acc.Nodup) : (dedupFOAux acc l).Nodup := by
  induction l generalizing acc with
  | nil => exact h
  | cons q l ih =>
      rw [dedupFOAux]
      apply ih
      by_cases hq : q ∈ acc
      · simpa [if_pos hq] using h
      · rw [if_neg hq]
        simp [List.nodup_append, h, hq]

lemma mem_dedupFO (a : α) (l : List α) : a ∈ dedupFO l ↔ a ∈ l := by
  rw [dedupFO, mem_dedupFOAux]
  simp

lemma nodup_dedupFO (l : List α) : (dedupFO l).Nodup :=
  nodup_dedupFOAux [] l List.nodup_nil

lemma dedupFO_append_singleton (l : List α) (p : α) :
    dedupFO (l ++ [p]) = (if p ∈ dedupFO l then dedupFO l else dedupFO l ++ [p]) :=
  dedupFOAux_append_singleton [] l p

lemma length_dedupFO (l : List α) : (dedupFO l).length = l.toFinset.card := by
  have hs : (dedupFO l).toFinset = l.toFinset := by
    apply Finset.ext
    intro a
    simp [List.mem_toFinset, mem_dedupFO]
  rw [← hs, List.toFinset_card_of_nodup (nodup_dedupFO l)]

lemma firstIndexOf_lt_length (a : α) (l : List α) (h : a ∈ l) :
    firstIndexOf a l < l.length := by
  induction l with
  | nil => exact absurd h (List.not_mem_nil _)
  | cons b l ih =>
      rw [firstIndexOf]
      by_cases hb : b = a
      · simp [hb]
      · rcases List.mem_cons.1 h with h1 | h1
        · exact absurd h1.symm hb
        · simpa [hb] using ih h1

lemma getD_firstIndexOf (a : α) (l : List α) (h : a ∈ l) (x : α) :
    l.getD (firstIndexOf a l) x = a := by
  induction l with
  | nil => exact absurd h (List.not_mem_nil _)
  | cons b l ih =>
      rw [firstIndexOf]
      by_cases hb : b = a
      · simp [hb]
      · rcases List.mem_cons.1 h with h1 | h1
        · exact absurd h1.symm hb
        · simpa [hb] using ih h1

lemma firstIndexOf_append_of_mem (a : α) (l l2 : List α) (h : a ∈ l) :
    firstIndexOf a (l ++ l2) = firstIndexOf a l := by
  induction l with
  | nil => exact absurd h (List.not_mem_nil _)
  | cons b l ih =>
      rw [List.cons_append, firstIndexOf, firstIndexOf]
      by_cases hb : b = a
      · simp [hb]
      · rcases List.mem_cons.1 h with h1 | h1
        · exact absurd h1.symm hb
        · simp [hb, ih h1]

lemma firstIndexOf_append_self (a : α) (l : List α) (h : a ∉ l) :
    firstIndexOf a (l ++ [a]) = l.length := by
  induction l with
  | nil => simp [firstIndexOf]
  | cons b l ih =>
      have hb : ¬ b = a := fun e => h (e ▸ List.mem_cons_self b l)
      have hm : a ∉ l := fun e => h (List.mem_cons_of_mem _ e)
      rw [List.cons_append, firstIndexOf, if_neg hb, ih hm, List.length_cons]

end DedupLemmas

section TripleLemmas

variable {α : Type}

lemma group3_flatten3 (l : List (α × α × α)) : group3 (flatten3 l) = l := by
  induction l with
  | nil => rfl
  | cons t l ih => simp [flatten3, group3, ih]

lemma length_flatten3 (l : List (α × α × α)) : (flatten3 l).length = 3 * l.length := by
  induction l with
  | nil => rfl
  | cons t l ih =>
      rw [flatten3]
      simp only [List.length_cons, ih]
      omega

lemma length_group3 (xs : List α) : (group3 xs).length = xs.length / 3 := by
  induction xs using group3.induct with
  | case1 x y z l ih =>
      rw [group3]
      simp only [List.length_cons, ih]
      omega
  | case2 xs h =>
      match xs, h with
      | [], _ =>
          show ([] : List (α × α × α)).length = ([] : List α).length / 3
          simp
      | [x], _ =>
          show ([] : List (α × α × α)).length = [x].length / 3
          simp
      | [x, y], _ =>
          show ([] : List (α × α × α)).length = [x, y].length / 3
          simp
      | x :: y :: z :: l, h => exact absurd rfl (h x y z l)

lemma flatten3_group3 (xs : List α) (h : xs.length % 3 = 0) :
    flatten3 (group3 xs) = xs := by
  induction xs using group3.induct with
  | case1 x y z l ih =>
      rw [group3, flatten3, ih]
      simp only [List.length_cons] at h
      omega
  | case2 xs hx =>
      match xs, hx, h with
      | [], _, _ => rfl
      | [x], _, hlen => simp at hlen
      | [x, y], _, hlen => simp at hlen
      | x :: y :: z :: l, hx, _ => exact absurd rfl (hx x y z l)

end TripleLemmas

lemma getD_append_length {α : Type} (l l2 : List α) (a x : α) :
    (l ++ a :: l2).getD l.length x = a := by
  rw [List.getD_append_right _ _ _ _ (le_refl _)]
  simp

lemma getD_mem_of_lt {α : Type} (l : List α) (j : ℕ) (x : α) (h : j < l.length) :
    l.getD j x ∈ l := by
  induction l generalizing j with
  | nil => simp at h
  | cons a l ih =>
      cases j with
      | zero => simp
      | succ j =>
          simp only [List.getD_cons_succ]
          exact List.mem_cons_of_mem _ (ih j (by simpa using h))

lemma soupInv_nil : SoupInv [] ⟨[], []⟩ := by
  refine ⟨rfl, rfl, ?_⟩
  intro j hj
  exact absurd hj (Nat.not_lt_zero j)

lemma soupInv_step (proc : List Point) (s : SoupState) (p : Point)
    (h : SoupInv proc s) : SoupInv (proc ++ [p]) (addSoupPoint s p) := by
  obtain ⟨hv, hlen, hidx⟩ := h
  by_cases hp : p ∈ dedupFO proc
  · have hd : dedupFO (proc ++ [p]) = dedupFO proc := by
      rw [dedupFO_append_singleton, if_pos hp]
    have hstep : addSoupPoint s p = ⟨s.verts, s.tris ++ [firstIndexOf p (dedupFO proc)]⟩ := by
      unfold addSoupPoint
      simp only [hv]
      rw [find?_mkLocalVertices_of_mem 0 (dedupFO proc)
        ⟨p.1, p.2.1, p.2.2, (mkLocalVertices 0 (dedupFO proc)).length⟩ hp]
      simp
      rfl
    rw [hstep]
    refine ⟨by rw [hd]; exact hv, by simp [hlen], ?_⟩
    intro j hj
    rw [hd]
    rcases Nat.lt_or_ge j proc.length with hj1 | hj1
    · rw [List.getD_append _ _ _ _ (by omega : j < s.tris.length),
        List.getD_append _ _ _ _ hj1]
      exact hidx j hj1
    · have hje : j = proc.length := by
        simp only [List.length_append, List.length_singleton] at hj
        omega
      subst hje
      rw [← hlen, getD_append_length, hlen, getD_append_length]
  · have hd : dedupFO (proc ++ [p]) = dedupFO proc ++ [p] := by
      rw [dedupFO_append_singleton, if_neg hp]
    have hvl : s.verts.length = (dedupFO proc).length := by
      rw [hv, length_mkLocalVertices]
    have hstep : addSoupPoint s p
        = ⟨s.verts ++ [⟨p.1, p.2.1, p.2.2, s.verts.length⟩], s.tris ++ [s.verts.length]⟩ := by
      unfold addSoupPoint
      simp only [hv]
      rw [find?_mkLocalVertices_of_not_mem 0 (dedupFO proc)
        ⟨p.1, p.2.1, p.2.2, (mkLocalVertices 0 (dedupFO proc)).length⟩ hp]
    rw [hstep]
    refine ⟨?_, by simp [hlen], ?_⟩
    · rw [hd, mkLocalVertices_append, ← hv, hvl]
      simp
    · intro j hj
      rw [hd]
      rcases Nat.lt_or_ge j proc.length with hj1 | hj1
      · rw [List.getD_append _ _ _ _ (by omega : j < s.tris.length),
          List.getD_append _ _ _ _ hj1,
          firstIndexOf_append_of_mem _ _ _
            ((mem_dedupFO _ _).2 (getD_mem_of_lt proc j (0, 0, 0) hj1))]
        exact hidx j hj1
      · have hje : j = proc.length := by
          simp only [List.length_append, List.length_singleton] at hj
          omega
        subst hje
        rw [← hlen, getD_append_length, hlen, getD_append_length,
          firstIndexOf_append_self _ _ hp, hvl]

lemma soup_fold_inv (pts : List Point) :
    SoupInv pts (pts.foldl addSoupPoint ⟨[], []⟩) := by
  induction pts using List.reverseRecOn with
  | nil => exact soupInv_nil
  | append_singleton l p ih =>
      rw [List.foldl_append]
      exact soupInv_step l _ p ih

lemma readStr_step (w : String) (rest : List Token) :
    IStream.readStr ⟨Token.tstr w :: rest, true, false, false⟩
      = (w, ⟨rest, true, false, false⟩) := by
  simp [IStream.readStr, IStream.readToken]

lemma readNum_step (q : ℚ) (rest : List Token) :
    IStream.readNum ⟨Token.tnum q :: rest, true, false, false⟩
      = (some q, ⟨rest, true, false, false⟩) := by
  simp [IStream.readNum, IStream.readToken]

lemma readUInt_step (n : ℕ) (rest : List Token) :
    IStream.readUInt ⟨Token.tnum (n : ℚ) :: rest, true, false, false⟩
      = (some n, ⟨rest, true, false, false⟩) := by
  simp [IStream.readUInt, IStream.readToken]

lemma readNums_exact (junk : ℚ) (qs : List ℚ) (rest : List Token) :
    IStream.readNums junk qs.length ⟨qs.map Token.tnum ++ rest, true, false, false⟩
      = (qs, ⟨rest, true, false, false⟩) := by
  induction qs with
  | nil => rfl
  | cons q qs ih =>
      simp only [List.map_cons, List.cons_append, List.length_cons, IStream.readNums,
        readNum_step, ih, Option.getD_some]

lemma readUInts_exact (junk : ℕ) (ns : List ℕ) :
    IStream.readUInts junk ns.length
        ⟨ns.map (fun (n : ℕ) => Token.tnum (n : ℚ)), true, false, false⟩
      = (ns, ⟨[], true, false, false⟩) := by
  induction ns with
  | nil => rfl
  | cons n ns ih =>
      simp only [List.map_cons, List.length_cons, IStream.readUInts,
        readUInt_step, ih, Option.getD_some]

/-- C3.  Text round trip: for every well-formed shape of a supported
discriminant, parsing the text produced by saving it reproduces the mesh
vertex/triangle counts and the triangle indices exactly, and every
floating-point field (radius, half-extents, radius/length, plane
coefficients, mesh vertex coordinates) as its default-precision rendering at
6 significant decimal digits — so the round trip is the identity whenever
each such field is already fixed by that rendering.  The saved token stream
contains no normal data; both the original mesh and the parsed one obtain
their normal array by the same recomputation from the vertex and triangle
arrays. -/
theorem text_roundtrip (s : Shape) (hwf : s.wf) (hne : s ≠ .octree)
    (junkNum : ℚ) (junkUInt : ℕ) :
    constructShapeFromText junkNum junkUInt (IStream.fresh (saveAsText s) true)
        = some (roundShape6 s) ∧
    (roundShape6 s = s →
      constructShapeFromText junkNum junkUInt (IStream.fresh (saveAsText s) true)
        = some s) := by
  have hmain : constructShapeFromText junkNum junkUInt (IStream.fresh (saveAsText s) true)
      = some (roundShape6 s) := by
    cases s with
    | sphere r => rfl
    | box x y z => rfl
    | cylinder r l => rfl
    | cone r l => rfl
    | plane a b c d => rfl
    | octree => exact absurd rfl hne
    | mesh m =>
        obtain ⟨h1, h2⟩ := hwf
        have htakev : m.vertices.take (3 * m.vertex_count) = m.vertices := by
          rw [← h1]
          exact List.take_length m.vertices
        have htaket : m.triangles.take (3 * m.triangle_count) = m.triangles := by
          rw [← h2]
          exact List.take_length m.triangles
        have hmm : m.vertices.map (fun q => Token.tnum (sigRound6 q))
            = (m.vertices.map sigRound6).map Token.tnum := by
          rw [List.map_map]
          rfl
        have hsave : saveAsText (.mesh m)
            = Token.tstr meshName :: Token.tnum (m.vertex_count : ℚ)
                :: Token.tnum (m.triangle_count : ℚ)
                :: ((m.vertices.map sigRound6).map Token.tnum
                    ++ m.triangles.map (fun (i : ℕ) => Token.tnum (i : ℚ))) := by
          simp [saveAsText, htakev, htaket, hmm]
        rw [hsave]
        unfold constructShapeFromText
        simp only [IStream.fresh, readStr_step, readUInt_step, Option.getD_some,
          IStream.good, Bool.not_false, Bool.and_self, if_true, meshName, sphereName,
          boxName, cylinderName, coneName, planeName, String.reduceEq, reduceIte]
        rw [show (3 * m.vertex_count) = (m.vertices.map sigRound6).length from by
          rw [List.length_map, h1]]
        rw [readNums_exact]
        rw [show (3 * m.triangle_count) = m.triangles.length from h2.symm]
        rw [readUInts_exact]
        rfl
  exact ⟨hmain, fun hfix => by rw [hmain, hfix]⟩

lemma soup_run (source : List Point) (h : ¬ source.length < 3) :
    createMeshFromVerticesSoup source
      = some { vertex_count :=
                 ((source.take (3 * (source.length / 3))).foldl addSoupPoint ⟨[], []⟩).verts.length
               triangle_count :=
                 ((source.take (3 * (source.length / 3))).foldl addSoupPoint ⟨[], []⟩).tris.length / 3
               vertices :=
                 flatten3 (((source.take (3 * (source.length / 3))).foldl addSoupPoint
                   ⟨[], []⟩).verts.map LocalVertexType.point)
               triangles :=
                 ((source.take (3 * (source.length / 3))).foldl addSoupPoint ⟨[], []⟩).tris } := by
  unfold createMeshFromVerticesSoup
  rw [if_neg h]

lemma take_soup_length (source : List Point) :
    (source.take (3 * (source.length / 3))).length = 3 * (source.length / 3) := by
  rw [List.length_take]
  have h3 : 3 * (source.length / 3) ≤ source.length := by omega
  omega

/-- C1.  Dedup correctness of the soup-based builder: on any accepted flat
point stream (at least 3 points), the produced mesh's vertex array holds
exactly the distinct coordinate triples of the processed points — its length
is their count, each distinct triple appears exactly once — and every entry of
the triangle-index array is strictly below `vertex_count`. -/
theorem soup_dedup_correctness (source : List Point) (h : 3 ≤ source.length) :
    ∃ m, createMeshFromVerticesSoup source = some m ∧
      m.vertex_count = (source.take (3 * (source.length / 3))).toFinset.card ∧
      (group3 m.vertices).Nodup ∧
      (∀ p : Point, p ∈ group3 m.vertices ↔ p ∈ source.take (3 * (source.length / 3))) ∧
      ∀ t ∈ m.triangles, t < m.vertex_count := by
  have hnone : ¬ source.length < 3 := not_lt.2 h
  obtain ⟨hv, hlen, hidx⟩ := soup_fold_inv (source.take (3 * (source.length / 3)))
  refine ⟨_, soup_run source hnone, ?_, ?_, ?_, ?_⟩
  · show ((source.take (3 * (source.length / 3))).foldl addSoupPoint ⟨[], []⟩).verts.length = _
    rw [hv, length_mkLocalVertices, length_dedupFO]
  · show (group3 (flatten3 (((source.take (3 * (source.length / 3))).foldl addSoupPoint
      ⟨[], []⟩).verts.map LocalVertexType.point))).Nodup
    rw [group3_flatten3, hv, map_point_mkLocalVertices]
    exact nodup_dedupFO _
  · intro p
    show p ∈ group3 (flatten3 (((source.take (3 * (source.length / 3))).foldl addSoupPoint
      ⟨[], []⟩).verts.map LocalVertexType.point)) ↔ _
    rw [group3_flatten3, hv, map_point_mkLocalVertices]
    exact mem_dedupFO p _
  · intro t ht
    show t < ((source.take (3 * (source.length / 3))).foldl addSoupPoint ⟨[], []⟩).verts.length
    obtain ⟨⟨j, hj⟩, rfl⟩ := List.mem_iff_get.1 ht
    have hjp : j < (source.take (3 * (source.length / 3))).length := hlen ▸ hj
    have hjd : (((source.take (3 * (source.length / 3))).foldl addSoupPoint
        ⟨[], []⟩).tris).getD j 0
        = (((source.take (3 * (source.length / 3))).foldl addSoupPoint ⟨[], []⟩).tris).get
          ⟨j, hj⟩ := by
      rw [List.getD_eq_getElem _ _ hj, List.get_eq_getElem]
    rw [← hjd, hidx j hjp, hv, length_mkLocalVertices]
    exact firstIndexOf_lt_length _ _
      ((mem_dedupFO _ _).2 (getD_mem_of_lt _ j (0, 0, 0) hjp))

/-- C2.  Sequential id assignment and emission order of the soup-based
builder: the emitted vertex triples are exactly the processed points
deduplicated in order of first appearance; the index list has one entry per
processed point, the entry for point `j` is the position of that point's first
appearance among the deduplicated vertices (the id assigned when it was first
seen, ids growing sequentially from 0), and consequently the output vertex at
index `triangles[3t+k]` carries exactly the coordinates of input point
`source[3t+k]`. -/
theorem soup_first_appearance_ids (source : List Point) (h : 3 ≤ source.length) :
    ∃ m, createMeshFromVerticesSoup source = some m ∧
      group3 m.vertices = dedupFO (source.take (3 * (source.length / 3))) ∧
      m.triangles.length = (source.take (3 * (source.length / 3))).length ∧
      ∀ j, j < m.triangles.length →
        m.triangles.getD j 0
            = firstIndexOf ((source.take (3 * (source.length / 3))).getD j (0, 0, 0))
                (dedupFO (source.take (3 * (source.length / 3)))) ∧
        (group3 m.vertices).getD (m.triangles.getD j 0) (0, 0, 0)
            = (source.take (3 * (source.length / 3))).getD j (0, 0, 0) := by
  have hnone : ¬ source.length < 3 := not_lt.2 h
  obtain ⟨hv, hlen, hidx⟩ := soup_fold_inv (source.take (3 * (source.length / 3)))
  have hverts : group3 (flatten3 (((source.take (3 * (source.length / 3))).foldl addSoupPoint
      ⟨[], []⟩).verts.map LocalVertexType.point))
      = dedupFO (source.take (3 * (source.length / 3))) := by
    rw [group3_flatten3, hv, map_point_mkLocalVertices]
  refine ⟨_, soup_run source hnone, hverts, hlen, ?_⟩
  intro j hj
  have hjp : j < (source.take (3 * (source.length / 3))).length := hlen ▸ hj
  have hmem : (source.take (3 * (source.length / 3))).getD j (0, 0, 0)
      ∈ dedupFO (source.take (3 * (source.length / 3))) :=
    (mem_dedupFO _ _).2 (getD_mem_of_lt _ j (0, 0, 0) hjp)
  refine ⟨hidx j hjp, ?_⟩
  rw [hverts, hidx j hjp, getD_firstIndexOf _ _ hmem]

/-- C6.  Boundary behaviour of the soup-based builder: fewer than 3 points
yield no mesh; at least 3 points always yield a mesh with
`triangle_count = len / 3` (integer division, silently dropping a remainder
of 1 or 2 points), and the non-fatal warning fires exactly when the point
count is not a multiple of 3. -/
theorem soup_boundary (source : List Point) :
    (source.length < 3 → createMeshFromVerticesSoup source = none) ∧
    (3 ≤ source.length →
      soupWarns source = decide (source.length % 3 ≠ 0) ∧
      ∃ m, createMeshFromVerticesSoup source = some m ∧
        m.triangle_count = source.length / 3) := by
  constructor
  · intro hlt
    unfold createMeshFromVerticesSoup
    rw [if_pos hlt]
  · intro h
    have hnone : ¬ source.length < 3 := not_lt.2 h
    constructor
    · by_cases hmod : source.length % 3 = 0 <;> simp [soupWarns, hnone, hmod]
    · obtain ⟨hv, hlen, hidx⟩ := soup_fold_inv (source.take (3 * (source.length / 3)))
      refine ⟨_, soup_run source hnone, ?_⟩
      show ((source.take (3 * (source.length / 3))).foldl addSoupPoint ⟨[], []⟩).tris.length / 3
        = source.length / 3
      rw [hlen, take_soup_length]
      omega

/-- C4.  Message round trip: converting any well-formed shape of a supported
discriminant to a message and back yields a value-equal shape, and converting
the opaque volumetric variant (`OCTREE`) to a message fails, leaving no
message.  (The discriminant set is closed, so `OCTREE` is the only
unrecognized case of `constructMsgFromShape`.) -/
theorem msg_roundtrip :
    (∀ s : Shape, s.wf → s.hasGeometry → s ≠ .octree →
        ∃ msg, constructMsgFromShape s = some msg ∧ constructShapeFromMsg msg = some s) ∧
    constructMsgFromShape .octree = none := by
  refine ⟨?_, rfl⟩
  intro s hwf hgeom hne
  cases s with
  | sphere r => exact ⟨_, rfl, rfl⟩
  | box x y z => exact ⟨_, rfl, rfl⟩
  | cylinder r l => exact ⟨_, rfl, rfl⟩
  | cone r l => exact ⟨_, rfl, rfl⟩
  | plane a b c d => exact ⟨_, rfl, rfl⟩
  | octree => exact absurd rfl hne
  | mesh m =>
      obtain ⟨vc, tc, vertsL, trisL⟩ := m
      obtain ⟨h1, h2⟩ := hwf
      obtain ⟨hg1, hg2⟩ := hgeom
      simp only [Mesh.wf] at h1 h2
      have hgv : 0 < vc := hg1
      have hgt : 0 < tc := hg2
      refine ⟨_, rfl, ?_⟩
      have htakev : vertsL.take (3 * vc) = vertsL := by
        rw [← h1]
        exact List.take_length vertsL
      have htaket : trisL.take (3 * tc) = trisL := by
        rw [← h2]
        exact List.take_length trisL
      have hlv : (group3 vertsL).length = vc := by
        rw [length_group3, h1]
        omega
      have hlt : (group3 trisL).length = tc := by
        rw [length_group3, h2]
        omega
      have hfv : flatten3 (group3 vertsL) = vertsL :=
        flatten3_group3 vertsL (by rw [h1]; omega)
      have hft : flatten3 (group3 trisL) = trisL :=
        flatten3_group3 trisL (by rw [h2]; omega)
      have hvne : (group3 vertsL).isEmpty = false := by
        cases hg : group3 vertsL with
        | nil =>
            rw [hg] at hlv
            simp at hlv
            omega
        | cons a l => rfl
      have htne : (group3 trisL).isEmpty = false := by
        cases hg : group3 trisL with
        | nil =>
            rw [hg] at hlt
            simp at hlt
            omega
        | cons a l => rfl
      show constructShapeFromMeshMsg ⟨group3 (vertsL.take (3 * vc)), group3 (trisL.take (3 * tc))⟩
        = some (.mesh ⟨vc, tc, vertsL, trisL⟩)
      unfold constructShapeFromMeshMsg
      simp only [htakev, htaket, hvne, htne, Bool.or_self, Bool.false_eq_true, if_false]
      unfold createMeshFromVertices
      rw [hfv, hft, hlv]
      have hct : trisL.length / 3 = tc := by
        rw [h2]
        omega
      rw [hct]

/-- C5.  Failure characterization of message-to-shape conversion: a primitive
message fails exactly when its dimension list is shorter than its kind needs
(sphere 1, box 3, cylinder and cone 2) and otherwise builds the shape from
exactly the required entries with no defaults substituted; a mesh message
fails exactly when its vertex list or its triangle list is empty; a plane
message always yields a plane. -/
theorem msg_failure_characterization :
    (∀ p : SolidPrimitiveMsg,
        constructShapeFromMsg (.prim p) = none ↔ p.dimensions.length < dimsRequired p.type) ∧
    (∀ r rest, constructShapeFromMsg (.prim ⟨.sphere, r :: rest⟩) = some (.sphere r)) ∧
    (∀ x y z rest, constructShapeFromMsg (.prim ⟨.box, x :: y :: z :: rest⟩) = some (.box x y z)) ∧
    (∀ r l rest, constructShapeFromMsg (.prim ⟨.cylinder, r :: l :: rest⟩)
        = some (.cylinder r l)) ∧
    (∀ r l rest, constructShapeFromMsg (.prim ⟨.cone, r :: l :: rest⟩) = some (.cone r l)) ∧
    (∀ m : MeshMsg, constructShapeFromMsg (.mesh m) = none
        ↔ (m.vertices = [] ∨ m.triangles = [])) ∧
    (∀ p : PlaneMsg, constructShapeFromMsg (.plane p) = some (constructShapeFromPlaneMsg p)) := by
  refine ⟨?_, fun r rest => rfl, fun x y z rest => rfl, fun r l rest => rfl,
    fun r l rest => rfl, ?_, fun p => rfl⟩
  · intro p
    obtain ⟨ty, dims⟩ := p
    cases ty <;>
      rcases dims with _ | ⟨a, _ | ⟨b, _ | ⟨c, tl⟩⟩⟩ <;>
        simp [constructShapeFromMsg, constructShapeFromPrimitiveMsg, dimsRequired]
  · intro m
    obtain ⟨vs, ts⟩ := m
    cases vs <;> cases ts <;>
      simp [constructShapeFromMsg, constructShapeFromMeshMsg]

/-- C7 (code bug witness).  With the text `"sphere\n"` — type token present,
radius missing but trailing whitespace keeping the stream off end-of-file —
the parser does not fail: it returns a sphere whose radius is whatever value
the uninitialized C++ variable held (the junk parameter, here 37); likewise a
box missing only its third extent comes back with two parsed fields and one
indeterminate field. -/
theorem text_parse_missing_fields_bug :
    constructShapeFromText 37 0 (IStream.fresh [Token.tstr sphereName] true)
        = some (.sphere 37) ∧
    constructShapeFromText 37 0
        (IStream.fresh [Token.tstr boxName, Token.tnum 1, Token.tnum 2] true)
        = some (.box 1 2 37) := ⟨rfl, rfl⟩

/-- C8.  The indexed builder copies both input arrays verbatim — the vertex
array is the flattening of the input points (grouping it back recovers the
input), the index array is the input index list unchanged — with
`vertex_count = len(vertices)` and `triangle_count = len(triangles) / 3`
(integer division); being total, it returns a mesh for every input, with no
bounds validation and no failure case (empty inputs and out-of-range indices
included). -/
theorem indexed_builder_verbatim (vertices : List Point) (triangles : List ℕ) :
    (createMeshFromVertices vertices triangles).vertex_count = vertices.length ∧
    (createMeshFromVertices vertices triangles).triangle_count = triangles.length / 3 ∧
    (createMeshFromVertices vertices triangles).vertices = flatten3 vertices ∧
    group3 (createMeshFromVertices vertices triangles).vertices = vertices ∧
    (createMeshFromVertices vertices triangles).triangles = triangles :=
  ⟨rfl, rfl, rfl, group3_flatten3 vertices, rfl⟩

/-- C9.  Extent of a plane: `computeShapeExtents` on a plane message returns
the zero vector whatever the four coefficients are (a deliberate special case
in the visitor, not an error), and the same holds through the shape-level
entry point for every plane shape. -/
theorem plane_extents_zero :
    (∀ p : PlaneMsg, computeShapeExtentsMsg (.plane p) = (0, 0, 0)) ∧
    (∀ a b c d : ℚ, computeShapeExtentsShape (.plane a b c d) = (0, 0, 0)) :=
  ⟨fun p => rfl, fun a b c d => rfl⟩

/-- C10.  Extent of an unsupported shape: the opaque volumetric variant is
exactly the discriminant whose message conversion fails, and for it
`computeShapeExtents` silently returns the zero vector instead of reporting
an error — indistinguishable from the extent of any plane. -/
theorem unsupported_shape_extents_zero :
    computeShapeExtentsShape .octree = (0, 0, 0) ∧
    constructMsgFromShape .octree = none ∧
    ∀ a b c d : ℚ, computeShapeExtentsShape .octree
      = computeShapeExtentsShape (.plane a b c d) :=
  ⟨rfl, rfl, fun a b c d => rfl⟩

/-- Witness for C1 at the concrete soup `sampleSoup` (6 points, 4 distinct). -/
theorem soup_dedup_correctness_witness :
    3 ≤ sampleSoup.length ∧
    (∃ m, createMeshFromVerticesSoup sampleSoup = some m ∧
      m.vertex_count = (sampleSoup.take (3 * (sampleSoup.length / 3))).toFinset.card ∧
      (group3 m.vertices).Nodup ∧
      (∀ p : Point, p ∈ group3 m.vertices ↔ p ∈ sampleSoup.take (3 * (sampleSoup.length / 3))) ∧
      ∀ t ∈ m.triangles, t < m.vertex_count) :=
  ⟨by decide, soup_dedup_correctness sampleSoup (by decide)⟩

/-- Witness for C2 at the concrete soup `sampleSoup`. -/
theorem soup_first_appearance_ids_witness :
    3 ≤ sampleSoup.length ∧
    (∃ m, createMeshFromVerticesSoup sampleSoup = some m ∧
      group3 m.vertices = dedupFO (sampleSoup.take (3 * (sampleSoup.length / 3))) ∧
      m.triangles.length = (sampleSoup.take (3 * (sampleSoup.length / 3))).length ∧
      ∀ j, j < m.triangles.length →
        m.triangles.getD j 0
            = firstIndexOf ((sampleSoup.take (3 * (sampleSoup.length / 3))).getD j (0, 0, 0))
                (dedupFO (sampleSoup.take (3 * (sampleSoup.length / 3)))) ∧
        (group3 m.vertices).getD (m.triangles.getD j 0) (0, 0, 0)
            = (sampleSoup.take (3 * (sampleSoup.length / 3))).getD j (0, 0, 0)) :=
  ⟨by decide, soup_first_appearance_ids sampleSoup (by decide)⟩

/-- Witness for C3 at the concrete mesh `sampleMesh`, whose coordinate values
0 and 1 are fixed by the default-precision rendering, so the round trip is
exact there. -/
theorem text_roundtrip_witness :
    (Shape.mesh sampleMesh).wf ∧ Shape.mesh sampleMesh ≠ Shape.octree ∧
    roundShape6 (Shape.mesh sampleMesh) = Shape.mesh sampleMesh ∧
    (constructShapeFromText 0 0 (IStream.fresh (saveAsText (Shape.mesh sampleMesh)) true)
        = some (roundShape6 (Shape.mesh sampleMesh)) ∧
      (roundShape6 (Shape.mesh sampleMesh) = Shape.mesh sampleMesh →
        constructShapeFromText 0 0 (IStream.fresh (saveAsText (Shape.mesh sampleMesh)) true)
          = some (Shape.mesh sampleMesh))) :=
  ⟨by decide, by simp, by decide,
    text_roundtrip (Shape.mesh sampleMesh) (by decide) (by simp) 0 0⟩

/-- Counterexample for C3 as frozen: the claim's "reproduces all primary
numeric fields exactly" fails on the code, because doubles are printed at the
iostream default precision of 6 significant digits.  A sphere of radius
`1/8192 = 0.0001220703125` — a value exactly representable in binary floating
point — is saved as the text `0.00012207` and reloads as `12207/100000000`,
a different number. -/
theorem text_roundtrip_counterexample :
    constructShapeFromText 0 0
        (IStream.fresh (saveAsText (Shape.sphere (mkRat 1 8192))) true)
      = some (Shape.sphere (mkRat 12207 100000000)) ∧
    (mkRat 12207 100000000 : ℚ) ≠ mkRat 1 8192 := by
  constructor
  · decide
  · decide

/-- Witness for C4 at a concrete sphere and the concrete mesh `sampleMesh`. -/
theorem msg_roundtrip_witness :
    (∃ msg, constructMsgFromShape (Shape.sphere 3) = some msg ∧
        constructShapeFromMsg msg = some (Shape.sphere 3)) ∧
    (∃ msg, constructMsgFromShape (Shape.mesh sampleMesh) = some msg ∧
        constructShapeFromMsg msg = some (Shape.mesh sampleMesh)) :=
  ⟨msg_roundtrip.1 (Shape.sphere 3) trivial trivial (by simp),
    msg_roundtrip.1 (Shape.mesh sampleMesh) (by decide) (by decide) (by simp)⟩

/-- Counterexample for C4 as frozen: a well-formed mesh with one vertex and
zero triangles — constructible by the program through the indexed builder or
the text `"mesh 1 0 ..."` — converts to a message successfully
(`constructMsgFromShape` has no emptiness check), but the reverse conversion
rejects the empty triangle list and returns no shape at all, so the round
trip does not yield a shape value-equal to the original. -/
theorem msg_roundtrip_counterexample :
    (Shape.mesh ⟨1, 0, [0, 0, 0], []⟩).wf ∧
    constructMsgFromShape (Shape.mesh ⟨1, 0, [0, 0, 0], []⟩)
      = some (ShapeMsg.mesh ⟨[(0, 0, 0)], []⟩) ∧
    constructShapeFromMsg (ShapeMsg.mesh ⟨[(0, 0, 0)], []⟩) = none :=
  ⟨by decide, rfl, rfl⟩

/-- Witness for C6 at concrete soups: 2 points fail; 4 points succeed with the
warning and exactly one triangle. -/
theorem soup_boundary_witness :
    createMeshFromVerticesSoup sampleSoupTwo = none ∧
    soupWarns sampleSoupFour = true ∧
    ∃ m, createMeshFromVerticesSoup sampleSoupFour = some m ∧ m.triangle_count = 1 := by
  refine ⟨(soup_boundary sampleSoupTwo).1 (by decide), ?_, ?_⟩
  · have hw := ((soup_boundary sampleSoupFour).2 (by decide)).1
    rw [hw]
    decide
  · obtain ⟨m, hm, hc⟩ := ((soup_boundary sampleSoupFour).2 (by decide)).2
    refine ⟨m, hm, ?_⟩
    rw [hc]
    decide

end shapes
